import Mathlib

/-!
Verification of the NoDL descriptor library (nodl_python + ros2nodl).

The development shallowly embeds the data model (`nodl/types/_types.py`),
the merge engine (`Node.__iadd__`), the version-dispatch parser
(`nodl/nodl_parse.py`), and the presentation-layer merge/validation glue
(`ros2nodl/api/api.py`).  Python dicts are modelled as association lists
with Python dict lookup/assignment semantics; Python exceptions are
modelled with explicit error sums.
-/

namespace NoDL

/-- Opaque, equality-comparable QoS policy blob (`rclpy.qos.QoSProfile` is
out of scope; the core only stores and compares it). -/
structure QoSProfile where
  blob : Nat
deriving DecidableEq

/-- The preset `QoSPresetProfiles.ACTION_STATUS_DEFAULT.value`, default qos
of an `Action` entry. -/
def ACTION_STATUS_DEFAULT : QoSProfile := ⟨0⟩

/-- The preset `QoSPresetProfiles.SERVICES_DEFAULT.value`, default qos of a
`Service` entry. -/
def SERVICES_DEFAULT : QoSProfile := ⟨1⟩

/-- The preset `QoSPresetProfiles.SYSTEM_DEFAULT.value`, default qos of a
`Topic` entry. -/
def SYSTEM_DEFAULT : QoSProfile := ⟨2⟩

/-- The four concrete `NoDLInterface` subclasses of `nodl/types/_types.py`
(`Action`, `Parameter`, `Service`, `Topic`) as a tagged union.  Field order
follows the attribute-assignment order of each `__init__`. -/
inductive Entry where
  | action (name : String) (type : String) (server client : Bool) (qos : QoSProfile)
  | parameter (name : String) (type : String)
  | service (name : String) (type : String) (server client : Bool) (qos : QoSProfile)
  | topic (name : String) (type : String) (publisher subscription : Bool) (qos : QoSProfile)
deriving DecidableEq

/-- `Action(...)` constructor with its Python keyword defaults. -/
def Action (name action_type : String) (server : Bool := false) (client : Bool := false)
    (qos : QoSProfile := ACTION_STATUS_DEFAULT) : Entry :=
  .action name action_type server client qos

/-- `Parameter(...)` constructor. -/
def Parameter (name parameter_type : String) : Entry :=
  .parameter name parameter_type

/-- `Service(...)` constructor with its Python keyword defaults. -/
def Service (name service_type : String) (server : Bool := false) (client : Bool := false)
    (qos : QoSProfile := SERVICES_DEFAULT) : Entry :=
  .service name service_type server client qos

/-- `Topic(...)` constructor with its Python keyword defaults. -/
def Topic (name message_type : String) (publisher : Bool := false)
    (subscription : Bool := false) (qos : QoSProfile := SYSTEM_DEFAULT) : Entry :=
  .topic name message_type publisher subscription qos

/-- `self.name` of an interface entry. -/
def Entry.entryName : Entry → String
  | .action n _ _ _ _ => n
  | .parameter n _ => n
  | .service n _ _ _ _ => n
  | .topic n _ _ _ _ => n

/-- A Python attribute value as it appears in an entry's `__dict__`. -/
inductive AttrVal where
  | s (v : String)
  | b (v : Bool)
  | q (v : QoSProfile)
deriving DecidableEq

/-- `self.__dict__` of a `NoDLInterface` instance: the attributes assigned by
`__init__`, in assignment order (`NoDLInterface.__init__` sets `name` and
`type`, then the subclass sets its role flags and `qos`). -/
def Entry.attrDict : Entry → List (String × AttrVal)
  | .action n t sv cl q =>
      [("name", .s n), ("type", .s t), ("server", .b sv), ("client", .b cl), ("qos", .q q)]
  | .parameter n t => [("name", .s n), ("type", .s t)]
  | .service n t sv cl q =>
      [("name", .s n), ("type", .s t), ("server", .b sv), ("client", .b cl), ("qos", .q q)]
  | .topic n t pb sb q =>
      [("name", .s n), ("type", .s t), ("publisher", .b pb), ("subscription", .b sb),
        ("qos", .q q)]

/-- `isinstance(other, type(self)) or isinstance(self, type(other))`: the four
entry classes are sibling leaf subclasses of `NoDLInterface`, so the test
holds exactly when both objects have the same class. -/
def Entry.sameClass : Entry → Entry → Bool
  | .action .., .action .. => true
  | .parameter .., .parameter .. => true
  | .service .., .service .. => true
  | .topic .., .topic .. => true
  | _, _ => false

/-- `NoDLInterface.__eq__`: the isinstance test short-circuits `and`, then the
two `__dict__`s are compared (Python dict equality; the key sequences of two
same-class instances coincide, so list equality of the attribute dicts is
dict equality here). -/
def pyEq (a b : Entry) : Bool :=
  a.sameClass b && (a.attrDict == b.attrDict)

/-- Python dict modelled as an association list in insertion order. -/
abbrev Dict (α : Type) := List (String × α)

/-- Python `d[k]` / `k in d` lookup (`none` when the key is absent). -/
def dictGet {α : Type} : Dict α → String → Option α
  | [], _ => none
  | p :: rest, k => if p.1 = k then some p.2 else dictGet rest k

/-- Python `d[k] = v`: overwrite in place when the key is present (keeping its
position), append otherwise.  A Python dict never holds a duplicate key; on a
(non-dict) duplicate-key list only the first binding is replaced. -/
def dictInsert {α : Type} : Dict α → String → α → Dict α
  | [], k, v => [(k, v)]
  | p :: rest, k, v => if p.1 = k then (k, v) :: rest else p :: dictInsert rest k v

/-- Well-formedness of the association-list model of a Python dict: keys are
pairwise distinct (guaranteed for every genuine Python dict). -/
def dictWF {α : Type} (d : Dict α) : Prop :=
  (d.map Prod.fst).Nodup

instance {α : Type} (d : Dict α) : Decidable (dictWF d) := by
  unfold dictWF
  infer_instance

/-- `{e.name: e for e in entries}`: the dict comprehension used by
`Node.__init__` for each entry kind. -/
def dictOfEntries (entries : List Entry) : Dict Entry :=
  entries.foldl (fun d e => dictInsert d e.entryName e) []

/-- `nodl.types.Node`: a component name plus the four per-kind entry dicts. -/
structure Node where
  name : String
  actions : Dict Entry
  parameters : Dict Entry
  services : Dict Entry
  topics : Dict Entry
deriving DecidableEq

/-- `Node(name=..., actions=..., parameters=..., services=..., topics=...)`:
builds the four name-keyed dicts from entry lists. -/
def Node.ofLists (name : String) (actions parameters services topics : List Entry) : Node :=
  ⟨name, dictOfEntries actions, dictOfEntries parameters, dictOfEntries services,
    dictOfEntries topics⟩

/-- The four entry kinds, in the iteration order of `Node.__iadd__`
(`['actions', 'parameters', 'services', 'topics']`). -/
inductive Kind where
  | actions | parameters | services | topics
deriving DecidableEq

/-- `getattr(node, kind)`: the entry dict of one kind. -/
def Node.dictOf (nd : Node) : Kind → Dict Entry
  | .actions => nd.actions
  | .parameters => nd.parameters
  | .services => nd.services
  | .topics => nd.topics

/-- All four entry dicts of a node are well-formed Python dicts. -/
def Node.WF (nd : Node) : Prop :=
  dictWF nd.actions ∧ dictWF nd.parameters ∧ dictWF nd.services ∧ dictWF nd.topics

instance (nd : Node) : Decidable nd.WF := by
  unfold Node.WF
  infer_instance

/-- `nodl.errors.NodeMergeConflictError`: its constructor stores exactly the
two nodes and the two conflicting interface entries
(`node_a`, `node_b`, `interface_a`, `interface_b`). -/
structure NodeMergeConflictError where
  node_a : Node
  node_b : Node
  interface_a : Entry
  interface_b : Entry
deriving DecidableEq

/-- The inner loop of `Node.__iadd__` for one entry kind: iterate `other`'s
dict in insertion order; a name already present with a `!=` entry raises
(returning the dict as mutated so far together with the conflicting pair),
otherwise `self`'s dict is assigned at that name and iteration continues. -/
def mergeDict (d : Dict Entry) : List (String × Entry) → Dict Entry × Option (Entry × Entry)
  | [] => (d, none)
  | (n, e) :: rest =>
    match dictGet d n with
    | some e0 =>
      if pyEq e0 e then mergeDict (dictInsert d n e) rest else (d, some (e0, e))
    | none => mergeDict (dictInsert d n e) rest

/-- `Node.__iadd__(self, other)` as a state transformer on the pair
`(self, other)`: every write in the source targets an attribute of `self`
(`getattr(self, interface_type)[name] = interface`), never of `other`.
Returns the final states of both objects plus the raised
`NodeMergeConflictError`, if any; on a conflict `self` keeps all mutations
performed before the raise (the raise aborts the remaining iteration). -/
def Node.iaddST (a b : Node) : (Node × Node) × Option NodeMergeConflictError :=
  match mergeDict a.actions b.actions with
  | (d1, some (x, y)) =>
    let a' : Node := { a with actions := d1 }
    ((a', b), some ⟨a', b, x, y⟩)
  | (d1, none) =>
    match mergeDict a.parameters b.parameters with
    | (d2, some (x, y)) =>
      let a' : Node := { a with actions := d1, parameters := d2 }
      ((a', b), some ⟨a', b, x, y⟩)
    | (d2, none) =>
      match mergeDict a.services b.services with
      | (d3, some (x, y)) =>
        let a' : Node := { a with actions := d1, parameters := d2, services := d3 }
        ((a', b), some ⟨a', b, x, y⟩)
      | (d3, none) =>
        match mergeDict a.topics b.topics with
        | (d4, some (x, y)) =>
          let a' : Node :=
            { a with actions := d1, parameters := d2, services := d3, topics := d4 }
          ((a', b), some ⟨a', b, x, y⟩)
        | (d4, none) =>
          (({ a with actions := d1, parameters := d2, services := d3, topics := d4 }, b),
            none)

/-- Decidable compatibility of two entry dicts: every binding of the first
whose key also occurs in the second holds a `pyEq`-equal entry. -/
def dictCompatB (d1 d2 : Dict Entry) : Bool :=
  d1.all fun p =>
    match dictGet d2 p.1 with
    | some e => pyEq p.2 e
    | none => true

/-- Decidable compatibility of two nodes: per kind, every shared entry name is
identically declared. -/
def Node.compatB (a b : Node) : Bool :=
  dictCompatB a.actions b.actions && dictCompatB a.parameters b.parameters &&
    dictCompatB a.services b.services && dictCompatB a.topics b.topics

/-- `ros2nodl.api.api._NodeWithOrigin`: a node together with the list of
files it came from. -/
structure NodeWithOrigin where
  paths : List String
  node : Node
deriving DecidableEq

/-- `_NodeWithOrigin.__iadd__(self, other)`: extends `self.paths` with
`other.paths`, then runs `self.node += other.node`.  Returns the final state
of `self` (on a conflict the node keeps its partial mutation) together with
the raised `NodeMergeConflictError`, if any.  The method body has **no**
`return` statement, so on success Python's augmented assignment receives
`None`; callers must model the stored result accordingly. -/
def NodeWithOrigin.iaddRun (self other : NodeWithOrigin) :
    NodeWithOrigin × Option NodeMergeConflictError :=
  let self1 : NodeWithOrigin := { self with paths := self.paths ++ other.paths }
  match Node.iaddST self1.node other.node with
  | ((a', _), err) => ({ self1 with node := a' }, err)

/-- Outcome of the merge loop of `show_nodl_parsed` (`ros2nodl/api/api.py`):
the `combined` map on success (function returns `True`), the `combined` map
at the caught `NodeMergeConflictError` (function reports and returns
`False`), or an uncaught `TypeError` (when `combined[name]` already holds
`None` and `None += current` is attempted). -/
inductive ShowOutcome where
  | success (combined : Dict (Option NodeWithOrigin))
  | mergeFailure (combined : Dict (Option NodeWithOrigin))
  | typeErrorCrash
deriving DecidableEq

/-- One iteration of the inner loop of `show_nodl_parsed` for node `nd` of
file `path`: seed `combined` on a fresh name; otherwise run
`combined[name] += current`.  Because `_NodeWithOrigin.__iadd__` returns
`None`, a successful merge stores `none` at the name; a raised conflict
leaves the (mutated) existing object in place and aborts with `False`; a
stored `none` raises an uncaught `TypeError`. -/
def showStep (combined : Dict (Option NodeWithOrigin)) (path : String) (nd : Node) :
    Dict (Option NodeWithOrigin) × Option ShowOutcome :=
  match dictGet combined nd.name with
  | none => (dictInsert combined nd.name (some ⟨[path], nd⟩), none)
  | some none => (combined, some .typeErrorCrash)
  | some (some existing) =>
    match NodeWithOrigin.iaddRun existing ⟨[path], nd⟩ with
    | (self', some _) =>
      (dictInsert combined nd.name (some self'), some (.mergeFailure
        (dictInsert combined nd.name (some self'))))
    | (_, none) => (dictInsert combined nd.name none, none)

/-- The inner loop of `show_nodl_parsed` over one file's node list. -/
def showFoldNodes (combined : Dict (Option NodeWithOrigin)) (path : String) :
    List Node → Dict (Option NodeWithOrigin) × Option ShowOutcome
  | [] => (combined, none)
  | nd :: rest =>
    match showStep combined path nd with
    | (c', some out) => (c', some out)
    | (c', none) => showFoldNodes c' path rest

/-- The merge loop of `show_nodl_parsed` over the items of the parsed
`node_lists` dict (built by `buildNodeLists`, so its path keys are
unique), returning the outcome of the combination phase. -/
def showFold (combined : Dict (Option NodeWithOrigin)) :
    List (String × List Node) → ShowOutcome
  | [] => .success combined
  | (path, nds) :: rest =>
    match showFoldNodes combined path nds with
    | (_, some out) => out
    | (c', none) => showFold c' rest

/-- `node_lists = {path: parse_nodl(path) for path in paths}` in
`show_nodl_parsed`: a dict comprehension keyed by the path, so a path
listed several times collapses to a single entry (later occurrences
overwrite the first with the same parse result). -/
def buildNodeLists (parse : String → List Node) (paths : List String) : Dict (List Node) :=
  paths.foldl (fun acc p => dictInsert acc p (parse p)) []

/-- The combination phase of `show_nodl_parsed` for a list of input paths:
build the `node_lists` dict, then run the merge loop over its items
starting from an empty `combined` map.  `parse` stands for `parse_nodl`
restricted to the given paths (a function of the path, as the dict
comprehension evaluates it once per distinct path). -/
def showNodlParsed (parse : String → List Node) (paths : List String) : ShowOutcome :=
  showFold [] (buildNodeLists parse paths)

/-- An XML element as seen by the parser of `nodl/nodl_parse.py`: its
source location data and its attribute dict. -/
structure Element where
  base : String
  sourceline : Nat
  attrs : Dict String
deriving DecidableEq

/-- `f"{element.base}:{element.sourceline}"`, the location prefix used by
error and warning messages. -/
def Element.locStr (e : Element) : String :=
  e.base ++ ":" ++ toString e.sourceline

/-- Python `str.lower()`, modelled character-wise over the string's
character list (Lean's own `String.toLower` maps the same `Char.toLower`
over the characters but through an opaque byte-position loop). -/
def pyLower (s : String) : String :=
  String.mk (s.data.map Char.toLower)

/-- `nodl.nodl_parse.str_to_bool`: case-insensitive membership of the string
in `["true", "1"]`. -/
def str_to_bool (boolean_string : String) : Bool :=
  ["true", "1"].contains (pyLower boolean_string)

/-- Python exceptions escaping the functions of `nodl/nodl_parse.py`:
bare `KeyError` (from a required-attribute subscript), `AttributeError`
(an unstructured crash, e.g. calling `.lower()` on a non-string),
`InvalidNoDLException(message, element)` and
`UnsupportedInterfaceException` (which formats the element location, the
offending version string and `NODL_MAX_SUPPORTED_VERSION`). -/
inductive PyError where
  | keyError (key : String)
  | attributeError
  | invalidNoDL (message : String) (element : Option Element)
  | unsupportedInterface (element : Element) (version : String) (max_version : Nat)
deriving DecidableEq

/-- `nodl.nodl_parse.NODL_MAX_SUPPORTED_VERSION`. -/
def NODL_MAX_SUPPORTED_VERSION : Nat := 1

/-- `nodl.nodl_parse.NoNodeInterfaceWarning`, whose message interpolates the
element location and the entry name
(`f"{element.base}:{element.sourceline}: {name} is neither ..."`). -/
inductive Warning where
  | noNodeInterface (loc : String) (name : String)
deriving DecidableEq

/-- `Interface_v1.parse_action`: reads `name` and `type` by subscript (a bare
`KeyError` escapes when absent), then evaluates
`str_to_bool(attribs.get("server", False))` — when the attribute is absent
the *boolean* `False` reaches `str_to_bool`, and `False.lower()` raises
`AttributeError`; `client` likewise.  Warns when neither flag is
affirmative, then builds the `Action` (default qos preset). -/
def parse_action (element : Element) : Except PyError (Entry × List Warning) :=
  match dictGet element.attrs "name" with
  | none => .error (.keyError "name")
  | some name =>
    match dictGet element.attrs "type" with
    | none => .error (.keyError "type")
    | some action_type =>
      match dictGet element.attrs "server" with
      | none => .error .attributeError
      | some sv =>
        match dictGet element.attrs "client" with
        | none => .error .attributeError
        | some cl =>
          let server := str_to_bool sv
          let client := str_to_bool cl
          let warns :=
            if !(server || client) then [Warning.noNodeInterface element.locStr name]
            else []
          .ok (Action name action_type server client, warns)

/-- `Interface_v1.parse_topic`: reads `name` and `type` inside a
`try`/`except KeyError` that re-raises a structured
`InvalidNoDLException("Topic is missing required attribute ...", element)`;
the role attributes then go through the same
`str_to_bool(attribs.get(..., False))` pattern as `parse_action`
(absent attribute → `AttributeError`).  Warns when neither `publisher` nor
`subscriber` is affirmative, then builds the `Topic`. -/
def parse_topic (element : Element) : Except PyError (Entry × List Warning) :=
  match dictGet element.attrs "name" with
  | none => .error (.invalidNoDL "Topic is missing required attribute name" (some element))
  | some name =>
    match dictGet element.attrs "type" with
    | none => .error (.invalidNoDL "Topic is missing required attribute type" (some element))
    | some message_type =>
      match dictGet element.attrs "publisher" with
      | none => .error .attributeError
      | some pb =>
        match dictGet element.attrs "subscriber" with
        | none => .error .attributeError
        | some sb =>
          let publisher := str_to_bool pb
          let subscriber := str_to_bool sb
          let warns :=
            if !(publisher || subscriber) then [Warning.noNodeInterface element.locStr name]
            else []
          .ok (Topic name message_type publisher subscriber, warns)

/-- The result of `nodl.nodl_parse.parse_nodl_file`'s version dispatch:
`Interface_v1(interface)` merely stores the interface element (version-1
extraction happens later, through its `parse_nodes`). -/
structure Interface_v1 where
  interface : Element
deriving DecidableEq

/-- The version dispatch of `nodl.nodl_parse.parse_nodl_file` (after the
element tree is loaded and the interface element located): a missing
`version` attribute raises
`InvalidNoDLException("Missing version attribute in 'interface'.", interface)`;
`"1"` constructs `Interface_v1`; any other value raises
`UnsupportedInterfaceException(interface)`. -/
def parse_nodl_file (interface : Element) : Except PyError Interface_v1 :=
  match dictGet interface.attrs "version" with
  | none =>
    .error (.invalidNoDL "Missing version attribute in interface." (some interface))
  | some version =>
    if version = "1" then .ok ⟨interface⟩
    else .error (.unsupportedInterface interface version NODL_MAX_SUPPORTED_VERSION)

/-- The parse-time error classes of `nodl/errors.py` that can escape
`nodl.parse` in the `_parsing` pipeline: `InvalidNoDLDocumentError` (schema
validation failed), `InvalidElementError` (bad element or missing
attribute), and `UnsupportedInterfaceError(version, max_version)` — whose
`version` argument is `interface.get('version')`, a string or `None`. -/
inductive NoDLError where
  | invalidNoDLDocument (message : String)
  | invalidElement (message : String)
  | unsupportedInterface (version : Option String) (max_version : Nat)
deriving DecidableEq

/-- `nodl._parsing._parsing._parse_interface`, parameterized by the
version-1 extraction routine (`nodl._parsing._v1._validate_and_parse`, a
collaborator outside this file's scope): dispatches on
`interface.get('version') == '1'` and otherwise raises
`UnsupportedInterfaceError(interface.get('version'), 1)` — note that an
*absent* version attribute also takes this branch, with `None` as the
version. -/
def _parse_interface (v1_extract : Element → List Node) (interface : Element) :
    Except NoDLError (List Node) :=
  if dictGet interface.attrs "version" = some "1" then .ok (v1_extract interface)
  else .error (.unsupportedInterface (dictGet interface.attrs "version")
    NODL_MAX_SUPPORTED_VERSION)

/-- `ros2nodl.api.api.validate_nodl_file`, as a function of the file path
and of the outcome of `parse_nodl(path)`: the single `except` clause
catches only `nodl.errors.InvalidNoDLDocumentError`, printing two
diagnostic lines and returning `False`; every other exception class
propagates out of the call (modelled by `.error`).  The second component is
the list of lines printed to the diagnostic stream. -/
def validate_nodl_file (path : String) (parse_result : Except NoDLError (List Node)) :
    Except NoDLError Bool × List String :=
  match parse_result with
  | .ok _ => (.ok true, [])
  | .error (.invalidNoDLDocument message) =>
    (.ok false, ["Validation of " ++ path ++ " failed", message])
  | .error e => (.error e, [])

/-! ### Helper lemmas about the embedded operations -/

/-- `NoDLInterface.__eq__` coincides with structural equality of entries:
the isinstance test forces matching variants and the `__dict__` comparison
forces field-wise equality. -/
theorem pyEq_iff (a b : Entry) : pyEq a b = true ↔ a = b := by
  cases a <;> cases b <;>
    simp [pyEq, Entry.sameClass, Entry.attrDict, and_assoc]

theorem pyEq_refl (a : Entry) : pyEq a a = true := (pyEq_iff a a).mpr rfl

theorem dictGet_insert {α : Type} (d : Dict α) (n : String) (v : α) (m : String) :
    dictGet (dictInsert d n v) m = if m = n then some v else dictGet d m := by
  induction d with
  | nil =>
    by_cases h : m = n
    · simp [dictInsert, dictGet, h]
    · simp [dictInsert, dictGet, h, Ne.symm h]
  | cons p rest ih =>
    by_cases hpn : p.1 = n
    · by_cases hmn : m = n
      · simp [dictInsert, dictGet, hpn, hmn]
      · simp [dictInsert, dictGet, hpn, hmn, Ne.symm hmn]
    · by_cases hpm : p.1 = m
      · have hmn : ¬ m = n := fun hh => hpn (hpm.trans hh)
        simp [dictInsert, dictGet, hpn, hpm, hmn]
      · simp [dictInsert, dictGet, hpn, hpm, ih]

theorem mem_of_dictGet {α : Type} {d : Dict α} {m : String} {v : α}
    (h : dictGet d m = some v) : (m, v) ∈ d := by
  induction d with
  | nil => simp [dictGet] at h
  | cons p rest ih =>
    by_cases hpm : p.1 = m
    · simp [dictGet, hpm] at h
      subst h
      have hpe : (m, p.2) = p := by
        rw [← hpm]
      rw [hpe]
      exact List.mem_cons_self _ _
    · simp [dictGet, hpm] at h
      exact List.mem_cons_of_mem p (ih h)

theorem dictGet_none_not_mem {α : Type} {d : Dict α} {m : String}
    (h : dictGet d m = none) (v : α) : (m, v) ∉ d := by
  induction d with
  | nil => simp
  | cons p rest ih =>
    by_cases hpm : p.1 = m
    · simp [dictGet, hpm] at h
    · simp [dictGet, hpm] at h
      intro hmem
      rcases List.mem_cons.mp hmem with heq | hmem
      · exact hpm (by rw [← heq])
      · exact ih h hmem

theorem dictGet_of_mem_wf {α : Type} {d : Dict α} (hwf : dictWF d) {m : String} {v : α}
    (hmem : (m, v) ∈ d) : dictGet d m = some v := by
  induction d with
  | nil => simp at hmem
  | cons p rest ih =>
    rcases List.mem_cons.mp hmem with heq | hmem
    · simp [dictGet, ← heq]
    · have hpm : ¬ p.1 = m := by
        intro hpm
        have : p.1 ∈ rest.map Prod.fst := by
          rw [hpm]
          exact List.mem_map.mpr ⟨(m, v), hmem, rfl⟩
        exact (List.nodup_cons.mp hwf).1 this
      have hrest : dictWF rest := (List.nodup_cons.mp hwf).2
      simp [dictGet, hpm, ih hrest hmem]

theorem mem_unique_of_wf {α : Type} {d : Dict α} (hwf : dictWF d) {m : String} {x y : α}
    (hx : (m, x) ∈ d) (hy : (m, y) ∈ d) : x = y := by
  have h1 := dictGet_of_mem_wf hwf hx
  have h2 := dictGet_of_mem_wf hwf hy
  rw [h1] at h2
  exact Option.some.inj h2

/-- Entries already bound in `self`'s dict keep their binding through the
merge loop (a present key is only ever overwritten with a `pyEq`-equal
entry; a conflict stops before writing). -/
theorem mergeDict_preserve :
    ∀ (l : List (String × Entry)) (d d' : Dict Entry) (r : Option (Entry × Entry)),
      mergeDict d l = (d', r) → ∀ m e, dictGet d m = some e → dictGet d' m = some e := by
  intro l
  induction l with
  | nil =>
    intro d d' r h m e hm
    simp [mergeDict] at h
    rw [← h.1]
    exact hm
  | cons p rest ih =>
    intro d d' r h m e hm
    rcases p with ⟨n, en⟩
    rw [mergeDict] at h
    split at h
    next e0 hg =>
      split at h
      next hp =>
        have he0 : e0 = en := (pyEq_iff e0 en).mp hp
        refine ih (dictInsert d n en) d' r h m e ?_
        rw [dictGet_insert]
        by_cases hmn : m = n
        · subst hmn
          rw [hm] at hg
          rw [if_pos rfl, ← he0, ← Option.some.inj hg]
        · rw [if_neg hmn]
          exact hm
      next hp =>
        injection h with h1 h2
        rw [← h1]
        exact hm
    next hg =>
      refine ih (dictInsert d n en) d' r h m e ?_
      rw [dictGet_insert]
      by_cases hmn : m = n
      · subst hmn
        rw [hm] at hg
        cases hg
      · rw [if_neg hmn]
        exact hm

/-- Every binding of the merged dict either was already in `self`'s dict or
occurs in the merged-in list. -/
theorem mergeDict_back :
    ∀ (l : List (String × Entry)) (d d' : Dict Entry) (r : Option (Entry × Entry)),
      mergeDict d l = (d', r) → ∀ m e, dictGet d' m = some e →
        dictGet d m = some e ∨ (m, e) ∈ l := by
  intro l
  induction l with
  | nil =>
    intro d d' r h m e hm
    simp [mergeDict] at h
    rw [← h.1] at hm
    exact Or.inl hm
  | cons p rest ih =>
    intro d d' r h m e hm
    rcases p with ⟨n, en⟩
    rw [mergeDict] at h
    have step : ∀ (hrec : mergeDict (dictInsert d n en) rest = (d', r)),
        dictGet d m = some e ∨ (m, e) ∈ (n, en) :: rest := by
      intro hrec
      rcases ih (dictInsert d n en) d' r hrec m e hm with hold | hmem
      · rw [dictGet_insert] at hold
        by_cases hmn : m = n
        · rw [if_pos hmn] at hold
          right
          rw [hmn, Option.some.inj hold]
          exact List.mem_cons_self _ _
        · rw [if_neg hmn] at hold
          exact Or.inl hold
      · exact Or.inr (List.mem_cons_of_mem _ hmem)
    split at h
    next e0 hg =>
      split at h
      next hp => exact step h
      next hp =>
        injection h with h1 h2
        rw [← h1] at hm
        exact Or.inl hm
    next hg => exact step h

/-- On a successful (conflict-free) merge every binding of the merged-in
list ends up in the result dict. -/
theorem mergeDict_success_mem :
    ∀ (l : List (String × Entry)) (d d' : Dict Entry),
      mergeDict d l = (d', none) → ∀ m v, (m, v) ∈ l → dictGet d' m = some v := by
  intro l
  induction l with
  | nil =>
    intro d d' _ m v hmem
    simp at hmem
  | cons p rest ih =>
    intro d d' h m v hmem
    rcases p with ⟨n, en⟩
    rw [mergeDict] at h
    have step : ∀ (hrec : mergeDict (dictInsert d n en) rest = (d', none)),
        dictGet d' m = some v := by
      intro hrec
      rcases List.mem_cons.mp hmem with heq | hmem
      · have hmn : m = n := congrArg Prod.fst heq
        have hv : v = en := congrArg Prod.snd heq
        subst hmn
        subst hv
        refine mergeDict_preserve rest _ d' none hrec m v ?_
        rw [dictGet_insert, if_pos rfl]
      · exact ih (dictInsert d n en) d' hrec m v hmem
    split at h
    next e0 hg =>
      split at h
      next hp => exact step h
      next hp =>
        injection h with h1 h2
        exact Option.noConfusion h2
    next hg => exact step h

/-- A raised conflict pair consists of the current binding of `self`'s
(partially updated) dict at some name and the entry of the merged-in list
at that name, and the two fail the `__eq__` test. -/
theorem mergeDict_conflict :
    ∀ (l : List (String × Entry)) (d d' : Dict Entry) (x y : Entry),
      mergeDict d l = (d', some (x, y)) →
        ∃ m, dictGet d' m = some x ∧ (m, y) ∈ l ∧ pyEq x y = false := by
  intro l
  induction l with
  | nil =>
    intro d d' x y h
    simp [mergeDict] at h
  | cons p rest ih =>
    intro d d' x y h
    rcases p with ⟨n, en⟩
    rw [mergeDict] at h
    split at h
    next e0 hg =>
      split at h
      next hp =>
        rcases ih (dictInsert d n en) d' x y h with ⟨m, hgm, hmem, hne⟩
        exact ⟨m, hgm, List.mem_cons_of_mem _ hmem, hne⟩
      next hp =>
        injection h with h1 h2
        injection h2 with h2
        have hx : e0 = x := congrArg Prod.fst h2
        have hy : en = y := congrArg Prod.snd h2
        subst hx
        subst hy
        refine ⟨n, ?_, List.mem_cons_self _ _, Bool.not_eq_true _ |>.mp hp⟩
        rw [← h1]
        exact hg
    next hg =>
      rcases ih (dictInsert d n en) d' x y h with ⟨m, hgm, hmem, hne⟩
      exact ⟨m, hgm, List.mem_cons_of_mem _ hmem, hne⟩

/-- A conflicting shared name forces the merge loop to raise. -/
theorem mergeDict_conflict_isSome (l : List (String × Entry)) (d : Dict Entry)
    (m : String) (e0 e1 : Entry) (h0 : dictGet d m = some e0) (h1 : (m, e1) ∈ l)
    (hne : e0 ≠ e1) : (mergeDict d l).2.isSome = true := by
  rcases hmd : mergeDict d l with ⟨d', r⟩
  cases r with
  | none =>
    have ha := mergeDict_preserve l d d' none hmd m e0 h0
    have hb := mergeDict_success_mem l d d' hmd m e1 h1
    rw [ha] at hb
    exact absurd (Option.some.inj hb) hne
  | some c => rfl

/-- When every shared name is identically declared (and the merged-in dict
is a genuine Python dict), the merge loop raises no conflict. -/
theorem mergeDict_compat_none :
    ∀ (l : List (String × Entry)) (d : Dict Entry), dictWF l →
      (∀ m e0 e1, dictGet d m = some e0 → (m, e1) ∈ l → e0 = e1) →
      (mergeDict d l).2 = none := by
  intro l
  induction l with
  | nil =>
    intro d _ _
    simp [mergeDict]
  | cons p rest ih =>
    intro d hwf hcompat
    rcases p with ⟨n, en⟩
    have hnotin : ∀ v, (n, v) ∉ rest := by
      intro v hv
      exact (List.nodup_cons.mp hwf).1 (List.mem_map.mpr ⟨(n, v), hv, rfl⟩)
    have hwfr : dictWF rest := (List.nodup_cons.mp hwf).2
    have hcompat' : ∀ m e0 e1, dictGet (dictInsert d n en) m = some e0 → (m, e1) ∈ rest →
        e0 = e1 := by
      intro m e0 e1 hg hmem
      by_cases hmn : m = n
      · subst hmn
        exact absurd hmem (hnotin e1)
      · rw [dictGet_insert, if_neg hmn] at hg
        exact hcompat m e0 e1 hg (List.mem_cons_of_mem _ hmem)
    rw [mergeDict]
    split
    next e0 hg =>
      have he : e0 = en := hcompat n e0 en hg (List.mem_cons_self _ _)
      rw [if_pos ((pyEq_iff e0 en).mpr he)]
      exact ih (dictInsert d n en) hwfr hcompat'
    next hg =>
      exact ih (dictInsert d n en) hwfr hcompat'

/-- Lookup characterization of a successful merge: bindings of the
merged-in list win (the loop assigns them last), everything else keeps
`self`'s binding. -/
theorem mergeDict_success_get (l : List (String × Entry)) (d d' : Dict Entry)
    (h : mergeDict d l = (d', none)) (m : String) :
    dictGet d' m = (dictGet l m).or (dictGet d m) := by
  cases hl : dictGet l m with
  | some v =>
    rw [Option.or]
    exact mergeDict_success_mem l d d' h m v (mem_of_dictGet hl)
  | none =>
    rw [Option.or]
    cases hd : dictGet d m with
    | some e => exact mergeDict_preserve l d d' none h m e hd
    | none =>
      cases hq : dictGet d' m with
      | none => rfl
      | some e =>
        rcases mergeDict_back l d d' none h m e hq with hold | hmem
        · rw [hd] at hold
          cases hold
        · exact absurd hmem (dictGet_none_not_mem hl e)

/-- Unpacking `dictCompatB`: a shared name holds `pyEq`-equal entries.  The
`d2`-side needs well-formedness to relate membership and lookup. -/
theorem dictCompatB_forward {d1 d2 : Dict Entry} (hc : dictCompatB d1 d2 = true)
    (hw2 : dictWF d2) (m : String) (e0 e1 : Entry) (hg : dictGet d1 m = some e0)
    (hmem : (m, e1) ∈ d2) : e0 = e1 := by
  have hmem1 : (m, e0) ∈ d1 := mem_of_dictGet hg
  have := List.all_eq_true.mp hc (m, e0) hmem1
  rw [dictGet_of_mem_wf hw2 hmem] at this
  exact (pyEq_iff e0 e1).mp this

/-- Unpacking `dictCompatB` in the reverse direction: compatibility of
`d1` against `d2` also rules out conflicts when merging `d1`'s bindings
into `d2`. -/
theorem dictCompatB_backward {d1 d2 : Dict Entry} (hc : dictCompatB d1 d2 = true)
    (m : String) (e0 e1 : Entry) (hg : dictGet d2 m = some e0) (hmem : (m, e1) ∈ d1) :
    e0 = e1 := by
  have := List.all_eq_true.mp hc (m, e1) hmem
  rw [hg] at this
  exact ((pyEq_iff e1 e0).mp this).symm

/-- A raised conflict names a binding of the *original* `self` dict and the
(unique, by well-formedness) binding of the merged-in dict at the same
name, and the two entries differ. -/
theorem conflict_pair_from_source (d l dj : Dict Entry) (x y : Entry) (hwf : dictWF l)
    (hmd : mergeDict d l = (dj, some (x, y))) :
    ∃ m, dictGet d m = some x ∧ dictGet l m = some y ∧ x ≠ y := by
  rcases mergeDict_conflict l d dj x y hmd with ⟨m, hgm, hmem, hpf⟩
  have hxy : x ≠ y := by
    intro he
    rw [he, pyEq_refl] at hpf
    cases hpf
  have hly : dictGet l m = some y := dictGet_of_mem_wf hwf hmem
  have hdx : dictGet d m = some x := by
    rcases mergeDict_back l d dj (some (x, y)) hmd m x hgm with hold | hmemx
    · exact hold
    · exact absurd (mem_unique_of_wf hwf hmemx hmem) hxy
  exact ⟨m, hdx, hly, hxy⟩

/-! ### Claim theorems -/

/-- C9: `a += b` (`Node.__iadd__`) leaves the right operand unchanged —
every write of the loop targets `getattr(self, ...)`; in the state-passing
embedding the second component of the returned pair is the untouched `b`,
whether the merge succeeds or raises. -/
theorem c9_right_operand_unchanged (a b : Node) : (Node.iaddST a b).1.2 = b := by
  rw [Node.iaddST]
  repeat' split
  all_goals rfl

/-- C7: `NoDLInterface.__eq__` is full structural equality for entries of
the same variant, and entries of different variants are never equal — in
particular an `Action` and a `Service` with identical name, type, server,
client and qos compare unequal (the `isinstance` guard fails for the
sibling classes even though their `__dict__`s coincide). -/
theorem c7_entry_equality :
    (∀ e1 e2 : Entry, pyEq e1 e2 = true ↔ e1 = e2) ∧
    ∀ n t sv cl q, pyEq (Entry.action n t sv cl q) (Entry.service n t sv cl q) = false := by
  refine ⟨pyEq_iff, ?_⟩
  intro n t sv cl q
  rfl

/-- C10 (counterexample): the claim "on a merge conflict `a`'s four entry
mappings are unchanged" is false.  Merging `{x: S, y: T2}` into `{y: T1}`
raises on `y`, but the action `x`, processed before the conflict, has
already been inserted into `a`. -/
theorem c10_counterexample :
    ((Node.iaddST (Node.ofLists "X" [Action "y" "T1"] [] [] [])
        (Node.ofLists "X" [Action "x" "S", Action "y" "T2"] [] [] [])).2.isSome = true) ∧
    (Node.iaddST (Node.ofLists "X" [Action "y" "T1"] [] [] [])
        (Node.ofLists "X" [Action "x" "S", Action "y" "T2"] [] [] [])).1.1 ≠
      Node.ofLists "X" [Action "y" "T1"] [] [] [] := by
  decide

/-- C10 (amended): when `a += b` raises a merge conflict, `a` is not rolled
back; instead `a` keeps every binding it had before the call (no binding is
ever altered, since a present name is only overwritten by an equal entry),
and any binding added before the raise comes from `b` — the merge is
incremental, not atomic, on error. -/
theorem c10_amended (a b a' : Node) (c : NodeMergeConflictError)
    (h : Node.iaddST a b = ((a', b), some c)) :
    a'.name = a.name ∧
    (∀ k m e, dictGet (a.dictOf k) m = some e → dictGet (a'.dictOf k) m = some e) ∧
    (∀ k m e, dictGet (a'.dictOf k) m = some e →
      dictGet (a.dictOf k) m = some e ∨ (m, e) ∈ b.dictOf k) := by
  rw [Node.iaddST] at h
  split at h
  next d1 x y heq1 =>
    injection h with h1 h2
    injection h1 with h1a h1b
    subst h1a
    refine ⟨rfl, ?_, ?_⟩
    · intro k m e hm
      cases k
      · exact mergeDict_preserve _ _ _ _ heq1 m e hm
      · exact hm
      · exact hm
      · exact hm
    · intro k m e hm
      cases k
      · exact mergeDict_back _ _ _ _ heq1 m e hm
      · exact Or.inl hm
      · exact Or.inl hm
      · exact Or.inl hm
  next d1 heq1 =>
    split at h
    next d2 x y heq2 =>
      injection h with h1 h2
      injection h1 with h1a h1b
      subst h1a
      refine ⟨rfl, ?_, ?_⟩
      · intro k m e hm
        cases k
        · exact mergeDict_preserve _ _ _ _ heq1 m e hm
        · exact mergeDict_preserve _ _ _ _ heq2 m e hm
        · exact hm
        · exact hm
      · intro k m e hm
        cases k
        · exact mergeDict_back _ _ _ _ heq1 m e hm
        · exact mergeDict_back _ _ _ _ heq2 m e hm
        · exact Or.inl hm
        · exact Or.inl hm
    next d2 heq2 =>
      split at h
      next d3 x y heq3 =>
        injection h with h1 h2
        injection h1 with h1a h1b
        subst h1a
        refine ⟨rfl, ?_, ?_⟩
        · intro k m e hm
          cases k
          · exact mergeDict_preserve _ _ _ _ heq1 m e hm
          · exact mergeDict_preserve _ _ _ _ heq2 m e hm
          · exact mergeDict_preserve _ _ _ _ heq3 m e hm
          · exact hm
        · intro k m e hm
          cases k
          · exact mergeDict_back _ _ _ _ heq1 m e hm
          · exact mergeDict_back _ _ _ _ heq2 m e hm
          · exact mergeDict_back _ _ _ _ heq3 m e hm
          · exact Or.inl hm
      next d3 heq3 =>
        split at h
        next d4 x y heq4 =>
          injection h with h1 h2
          injection h1 with h1a h1b
          subst h1a
          refine ⟨rfl, ?_, ?_⟩
          · intro k m e hm
            cases k
            · exact mergeDict_preserve _ _ _ _ heq1 m e hm
            · exact mergeDict_preserve _ _ _ _ heq2 m e hm
            · exact mergeDict_preserve _ _ _ _ heq3 m e hm
            · exact mergeDict_preserve _ _ _ _ heq4 m e hm
          · intro k m e hm
            cases k
            · exact mergeDict_back _ _ _ _ heq1 m e hm
            · exact mergeDict_back _ _ _ _ heq2 m e hm
            · exact mergeDict_back _ _ _ _ heq3 m e hm
            · exact mergeDict_back _ _ _ _ heq4 m e hm
        next d4 heq4 =>
          injection h with h1 h2
          exact Option.noConfusion h2

/-- C10 (witness): the amended theorem applied at the concrete conflicting
merge of the counterexample. -/
theorem c10_amended_witness :
    Node.iaddST (Node.ofLists "X" [Action "y" "T1"] [] [] [])
        (Node.ofLists "X" [Action "x" "S", Action "y" "T2"] [] [] []) =
      ((⟨"X", [("y", Entry.action "y" "T1" false false ⟨0⟩),
          ("x", Entry.action "x" "S" false false ⟨0⟩)], [], [], []⟩, Node.ofLists "X"
          [Action "x" "S", Action "y" "T2"] [] [] []),
        some ⟨⟨"X", [("y", Entry.action "y" "T1" false false ⟨0⟩),
          ("x", Entry.action "x" "S" false false ⟨0⟩)], [], [], []⟩,
          Node.ofLists "X" [Action "x" "S", Action "y" "T2"] [] [] [],
          Entry.action "y" "T1" false false ⟨0⟩, Entry.action "y" "T2" false false ⟨0⟩⟩) ∧
    (⟨"X", [("y", Entry.action "y" "T1" false false ⟨0⟩),
        ("x", Entry.action "x" "S" false false ⟨0⟩)], [], [], []⟩ : Node).name =
      (Node.ofLists "X" [Action "y" "T1"] [] [] []).name := by
  constructor
  · decide
  · exact (c10_amended (Node.ofLists "X" [Action "y" "T1"] [] [] [])
      (Node.ofLists "X" [Action "x" "S", Action "y" "T2"] [] [] [])
      ⟨"X", [("y", Entry.action "y" "T1" false false ⟨0⟩),
        ("x", Entry.action "x" "S" false false ⟨0⟩)], [], [], []⟩
      ⟨⟨"X", [("y", Entry.action "y" "T1" false false ⟨0⟩),
        ("x", Entry.action "x" "S" false false ⟨0⟩)], [], [], []⟩,
        Node.ofLists "X" [Action "x" "S", Action "y" "T2"] [] [] [],
        Entry.action "y" "T1" false false ⟨0⟩, Entry.action "y" "T2" false false ⟨0⟩⟩
      (by decide)).1

/-- C1 (counterexample): the claim says the raised merge-conflict error
carries "the origin file sets" of the two components.  It does not:
`NodeMergeConflictError` stores only the two nodes and the two entries, so
merging the same conflicting components tracked under *different* origin
file sets raises structurally identical error values — the error cannot
name or determine the files.  (The caller `show_nodl_parsed` reports files
from its own `_NodeWithOrigin` bookkeeping, outside the error object.) -/
theorem c1_counterexample :
    (NodeWithOrigin.iaddRun ⟨["a.nodl.xml"], Node.ofLists "X" [Action "foo" "T1"] [] [] []⟩
        ⟨["b.nodl.xml"], Node.ofLists "X" [Action "foo" "T2"] [] [] []⟩).2 =
      (NodeWithOrigin.iaddRun ⟨["c.nodl.xml"], Node.ofLists "X" [Action "foo" "T1"] [] [] []⟩
        ⟨["d.nodl.xml"], Node.ofLists "X" [Action "foo" "T2"] [] [] []⟩).2 ∧
    ((NodeWithOrigin.iaddRun ⟨["a.nodl.xml"], Node.ofLists "X" [Action "foo" "T1"] [] [] []⟩
        ⟨["b.nodl.xml"], Node.ofLists "X" [Action "foo" "T2"] [] [] []⟩).2.isSome = true) ∧
    (["a.nodl.xml"] : List String) ≠ ["c.nodl.xml"] := by
  decide

/-- C1 (amended): when a same-named entry of some kind is declared
differently in two components, merging the second into the first raises a
`NodeMergeConflictError` that carries the two owning components (`node_a`
is the partially-updated first component, keeping its name, `node_b` the
second) and a pair of structurally unequal conflicting entries taken from
the same kind and name of the two operands; the raise aborts the merge
immediately.  Origin file sets are *not* part of the error; the reporting
layer supplies them separately. -/
theorem c1_amended (a b : Node) (k : Kind) (n : String) (e0 e1 : Entry)
    (hwfb : b.WF) (h0 : dictGet (a.dictOf k) n = some e0)
    (h1 : dictGet (b.dictOf k) n = some e1) (hne : e0 ≠ e1) :
    ∃ a' c, Node.iaddST a b = ((a', b), some c) ∧ c.node_a = a' ∧ c.node_b = b ∧
      a'.name = a.name ∧ c.interface_a ≠ c.interface_b ∧
      ∃ k' n', dictGet (a.dictOf k') n' = some c.interface_a ∧
        dictGet (b.dictOf k') n' = some c.interface_b := by
  obtain ⟨hw1, hw2, hw3, hw4⟩ := hwfb
  rcases hmd1 : mergeDict a.actions b.actions with ⟨d1, r1⟩
  cases r1 with
  | some c1 =>
    rcases c1 with ⟨x, y⟩
    rcases conflict_pair_from_source a.actions b.actions d1 x y hw1 hmd1 with ⟨m, hax, hby, hxy⟩
    refine ⟨{ a with actions := d1 }, ⟨{ a with actions := d1 }, b, x, y⟩, ?_, rfl, rfl, rfl,
      hxy, Kind.actions, m, hax, hby⟩
    rw [Node.iaddST, hmd1]
  | none =>
    rcases hmd2 : mergeDict a.parameters b.parameters with ⟨d2, r2⟩
    cases r2 with
    | some c2 =>
      rcases c2 with ⟨x, y⟩
      rcases conflict_pair_from_source a.parameters b.parameters d2 x y hw2 hmd2 with
        ⟨m, hax, hby, hxy⟩
      refine ⟨{ a with actions := d1, parameters := d2 },
        ⟨{ a with actions := d1, parameters := d2 }, b, x, y⟩, ?_, rfl, rfl, rfl,
        hxy, Kind.parameters, m, hax, hby⟩
      rw [Node.iaddST, hmd1, hmd2]
    | none =>
      rcases hmd3 : mergeDict a.services b.services with ⟨d3, r3⟩
      cases r3 with
      | some c3 =>
        rcases c3 with ⟨x, y⟩
        rcases conflict_pair_from_source a.services b.services d3 x y hw3 hmd3 with
          ⟨m, hax, hby, hxy⟩
        refine ⟨{ a with actions := d1, parameters := d2, services := d3 },
          ⟨{ a with actions := d1, parameters := d2, services := d3 }, b, x, y⟩, ?_, rfl,
          rfl, rfl, hxy, Kind.services, m, hax, hby⟩
        rw [Node.iaddST, hmd1, hmd2, hmd3]
      | none =>
        rcases hmd4 : mergeDict a.topics b.topics with ⟨d4, r4⟩
        cases r4 with
        | some c4 =>
          rcases c4 with ⟨x, y⟩
          rcases conflict_pair_from_source a.topics b.topics d4 x y hw4 hmd4 with
            ⟨m, hax, hby, hxy⟩
          refine ⟨{ a with actions := d1, parameters := d2, services := d3, topics := d4 },
            ⟨{ a with actions := d1, parameters := d2, services := d3, topics := d4 }, b, x,
              y⟩, ?_, rfl, rfl, rfl, hxy, Kind.topics, m, hax, hby⟩
          rw [Node.iaddST, hmd1, hmd2, hmd3, hmd4]
        | none =>
          exfalso
          have hmem := mem_of_dictGet h1
          have hsome := mergeDict_conflict_isSome (b.dictOf k) (a.dictOf k) n e0 e1 h0 hmem hne
          cases k
          · rw [show Node.dictOf b .actions = b.actions from rfl,
              show Node.dictOf a .actions = a.actions from rfl, hmd1] at hsome
            cases hsome
          · rw [show Node.dictOf b .parameters = b.parameters from rfl,
              show Node.dictOf a .parameters = a.parameters from rfl, hmd2] at hsome
            cases hsome
          · rw [show Node.dictOf b .services = b.services from rfl,
              show Node.dictOf a .services = a.services from rfl, hmd3] at hsome
            cases hsome
          · rw [show Node.dictOf b .topics = b.topics from rfl,
              show Node.dictOf a .topics = a.topics from rfl, hmd4] at hsome
            cases hsome

/-- C1 (witness): the amended theorem at the concrete instance of the
claim — component `X` with action `foo` of type `T1` merged with a
same-named component whose action `foo` has type `T2`. -/
theorem c1_amended_witness :
    ((Node.ofLists "X" [Action "foo" "T2"] [] [] []).WF ∧
      dictGet ((Node.ofLists "X" [Action "foo" "T1"] [] [] []).dictOf .actions) "foo" =
        some (Action "foo" "T1") ∧
      dictGet ((Node.ofLists "X" [Action "foo" "T2"] [] [] []).dictOf .actions) "foo" =
        some (Action "foo" "T2") ∧
      Action "foo" "T1" ≠ Action "foo" "T2") ∧
    ∃ a' c, Node.iaddST (Node.ofLists "X" [Action "foo" "T1"] [] [] [])
        (Node.ofLists "X" [Action "foo" "T2"] [] [] []) = ((a', Node.ofLists "X"
          [Action "foo" "T2"] [] [] []), some c) ∧
      c.node_a = a' ∧ c.node_b = Node.ofLists "X" [Action "foo" "T2"] [] [] [] ∧
      a'.name = (Node.ofLists "X" [Action "foo" "T1"] [] [] []).name ∧
      c.interface_a ≠ c.interface_b ∧
      ∃ k' n', dictGet ((Node.ofLists "X" [Action "foo" "T1"] [] [] []).dictOf k') n' =
          some c.interface_a ∧
        dictGet ((Node.ofLists "X" [Action "foo" "T2"] [] [] []).dictOf k') n' =
          some c.interface_b := by
  refine ⟨⟨by decide, by decide, by decide, by decide⟩, ?_⟩
  exact c1_amended (Node.ofLists "X" [Action "foo" "T1"] [] [] [])
    (Node.ofLists "X" [Action "foo" "T2"] [] [] []) .actions "foo"
    (Action "foo" "T1") (Action "foo" "T2") (by decide) (by decide) (by decide) (by decide)

theorem option_or_comm_of_agree (o1 o2 : Option Entry)
    (h : ∀ x y, o1 = some x → o2 = some y → x = y) : o1.or o2 = o2.or o1 := by
  cases o1 with
  | none => cases o2 <;> rfl
  | some x =>
    cases o2 with
    | none => rfl
    | some y =>
      rw [h x y rfl rfl]

/-- C3: for two well-formed components whose shared entry names are
identically declared, merging in either order succeeds and yields the same
entry mapping for every kind and name (insertion order — the only
order-sensitive residue — is not part of mapping content). -/
theorem c3_commutative (a b : Node) (ha : a.WF) (hb : b.WF)
    (hcompat : Node.compatB a b = true) :
    ∃ a' b', Node.iaddST a b = ((a', b), none) ∧ Node.iaddST b a = ((b', a), none) ∧
      a'.name = a.name ∧ b'.name = b.name ∧
      ∀ k m, dictGet (a'.dictOf k) m = dictGet (b'.dictOf k) m := by
  obtain ⟨ha1, ha2, ha3, ha4⟩ := ha
  obtain ⟨hb1, hb2, hb3, hb4⟩ := hb
  rw [Node.compatB] at hcompat
  have hc4 := (Bool.and_eq_true _ _ |>.mp hcompat).2
  have hc123 := (Bool.and_eq_true _ _ |>.mp hcompat).1
  have hc3 := (Bool.and_eq_true _ _ |>.mp hc123).2
  have hc12 := (Bool.and_eq_true _ _ |>.mp hc123).1
  have hc2 := (Bool.and_eq_true _ _ |>.mp hc12).2
  have hc1 := (Bool.and_eq_true _ _ |>.mp hc12).1
  have sAB1 : (mergeDict a.actions b.actions).2 = none :=
    mergeDict_compat_none b.actions a.actions hb1 (dictCompatB_forward hc1 hb1)
  have sAB2 : (mergeDict a.parameters b.parameters).2 = none :=
    mergeDict_compat_none b.parameters a.parameters hb2 (dictCompatB_forward hc2 hb2)
  have sAB3 : (mergeDict a.services b.services).2 = none :=
    mergeDict_compat_none b.services a.services hb3 (dictCompatB_forward hc3 hb3)
  have sAB4 : (mergeDict a.topics b.topics).2 = none :=
    mergeDict_compat_none b.topics a.topics hb4 (dictCompatB_forward hc4 hb4)
  have sBA1 : (mergeDict b.actions a.actions).2 = none :=
    mergeDict_compat_none a.actions b.actions ha1 (dictCompatB_backward hc1)
  have sBA2 : (mergeDict b.parameters a.parameters).2 = none :=
    mergeDict_compat_none a.parameters b.parameters ha2 (dictCompatB_backward hc2)
  have sBA3 : (mergeDict b.services a.services).2 = none :=
    mergeDict_compat_none a.services b.services ha3 (dictCompatB_backward hc3)
  have sBA4 : (mergeDict b.topics a.topics).2 = none :=
    mergeDict_compat_none a.topics b.topics ha4 (dictCompatB_backward hc4)
  rcases hmdAB1 : mergeDict a.actions b.actions with ⟨dab1, rab1⟩
  have hr : rab1 = none := by rw [hmdAB1] at sAB1; exact sAB1
  subst hr
  rcases hmdAB2 : mergeDict a.parameters b.parameters with ⟨dab2, rab2⟩
  have hr : rab2 = none := by rw [hmdAB2] at sAB2; exact sAB2
  subst hr
  rcases hmdAB3 : mergeDict a.services b.services with ⟨dab3, rab3⟩
  have hr : rab3 = none := by rw [hmdAB3] at sAB3; exact sAB3
  subst hr
  rcases hmdAB4 : mergeDict a.topics b.topics with ⟨dab4, rab4⟩
  have hr : rab4 = none := by rw [hmdAB4] at sAB4; exact sAB4
  subst hr
  rcases hmdBA1 : mergeDict b.actions a.actions with ⟨dba1, rba1⟩
  have hr : rba1 = none := by rw [hmdBA1] at sBA1; exact sBA1
  subst hr
  rcases hmdBA2 : mergeDict b.parameters a.parameters with ⟨dba2, rba2⟩
  have hr : rba2 = none := by rw [hmdBA2] at sBA2; exact sBA2
  subst hr
  rcases hmdBA3 : mergeDict b.services a.services with ⟨dba3, rba3⟩
  have hr : rba3 = none := by rw [hmdBA3] at sBA3; exact sBA3
  subst hr
  rcases hmdBA4 : mergeDict b.topics a.topics with ⟨dba4, rba4⟩
  have hr : rba4 = none := by rw [hmdBA4] at sBA4; exact sBA4
  subst hr
  refine ⟨⟨a.name, dab1, dab2, dab3, dab4⟩, ⟨b.name, dba1, dba2, dba3, dba4⟩, ?_, ?_, rfl,
    rfl, ?_⟩
  · rw [Node.iaddST, hmdAB1, hmdAB2, hmdAB3, hmdAB4]
  · rw [Node.iaddST, hmdBA1, hmdBA2, hmdBA3, hmdBA4]
  · intro k m
    cases k
    · show dictGet dab1 m = dictGet dba1 m
      rw [mergeDict_success_get b.actions a.actions dab1 hmdAB1 m,
        mergeDict_success_get a.actions b.actions dba1 hmdBA1 m]
      exact option_or_comm_of_agree _ _ fun x y hx hy =>
        dictCompatB_backward hc1 m x y hx (mem_of_dictGet hy)
    · show dictGet dab2 m = dictGet dba2 m
      rw [mergeDict_success_get b.parameters a.parameters dab2 hmdAB2 m,
        mergeDict_success_get a.parameters b.parameters dba2 hmdBA2 m]
      exact option_or_comm_of_agree _ _ fun x y hx hy =>
        dictCompatB_backward hc2 m x y hx (mem_of_dictGet hy)
    · show dictGet dab3 m = dictGet dba3 m
      rw [mergeDict_success_get b.services a.services dab3 hmdAB3 m,
        mergeDict_success_get a.services b.services dba3 hmdBA3 m]
      exact option_or_comm_of_agree _ _ fun x y hx hy =>
        dictCompatB_backward hc3 m x y hx (mem_of_dictGet hy)
    · show dictGet dab4 m = dictGet dba4 m
      rw [mergeDict_success_get b.topics a.topics dab4 hmdAB4 m,
        mergeDict_success_get a.topics b.topics dba4 hmdBA4 m]
      exact option_or_comm_of_agree _ _ fun x y hx hy =>
        dictCompatB_backward hc4 m x y hx (mem_of_dictGet hy)

/-- C3 (witness): the commutativity theorem at two concrete components of
the same name with disjoint entries. -/
theorem c3_commutative_witness :
    ((Node.ofLists "X" [Action "foo" "T"] [] [] []).WF ∧
      (Node.ofLists "X" [] [] [] [Topic "t" "M"]).WF ∧
      Node.compatB (Node.ofLists "X" [Action "foo" "T"] [] [] [])
        (Node.ofLists "X" [] [] [] [Topic "t" "M"]) = true) ∧
    ∃ a' b', Node.iaddST (Node.ofLists "X" [Action "foo" "T"] [] [] [])
        (Node.ofLists "X" [] [] [] [Topic "t" "M"]) =
          ((a', Node.ofLists "X" [] [] [] [Topic "t" "M"]), none) ∧
      Node.iaddST (Node.ofLists "X" [] [] [] [Topic "t" "M"])
        (Node.ofLists "X" [Action "foo" "T"] [] [] []) =
          ((b', Node.ofLists "X" [Action "foo" "T"] [] [] []), none) ∧
      a'.name = (Node.ofLists "X" [Action "foo" "T"] [] [] []).name ∧
      b'.name = (Node.ofLists "X" [] [] [] [Topic "t" "M"]).name ∧
      ∀ k m, dictGet (a'.dictOf k) m = dictGet (b'.dictOf k) m := by
  refine ⟨⟨by decide, by decide, by decide⟩, ?_⟩
  exact c3_commutative (Node.ofLists "X" [Action "foo" "T"] [] [] [])
    (Node.ofLists "X" [] [] [] [Topic "t" "M"]) (by decide) (by decide) (by decide)

theorem dictInsert_self {α : Type} (d : Dict α) (n : String) (v : α)
    (h : dictGet d n = some v) : dictInsert d n v = d := by
  induction d with
  | nil => simp [dictGet] at h
  | cons p rest ih =>
    by_cases hpn : p.1 = n
    · rw [dictGet, if_pos hpn] at h
      have hv : p.2 = v := Option.some.inj h
      rw [dictInsert, if_pos hpn, ← hpn, ← hv]
    · rw [dictGet, if_neg hpn] at h
      rw [dictInsert, if_neg hpn, ih h]

/-- Merging a list whose every binding already holds in `self`'s dict is a
no-op: each overwrite stores the value already present, and no conflict is
raised. -/
theorem mergeDict_agree :
    ∀ (l : List (String × Entry)) (d : Dict Entry),
      (∀ m v, (m, v) ∈ l → dictGet d m = some v) → mergeDict d l = (d, none) := by
  intro l
  induction l with
  | nil =>
    intro d _
    rw [mergeDict]
  | cons p rest ih =>
    intro d hagree
    rcases p with ⟨n, en⟩
    have hg : dictGet d n = some en := hagree n en (List.mem_cons_self _ _)
    rw [mergeDict, hg]
    show (if pyEq en en = true then mergeDict (dictInsert d n en) rest
      else (d, some (en, en))) = (d, none)
    rw [if_pos (pyEq_refl en), dictInsert_self d n en hg]
    exact ih d fun m v hmem => hagree m v (List.mem_cons_of_mem _ hmem)

/-- Seeding a list of distinctly-named nodes whose names are fresh for
`combined` never reaches the `combined[name] += current` branch: each node
is inserted and the loop finishes without an early outcome. -/
theorem showFoldNodes_seed :
    ∀ (ns : List Node) (combined : Dict (Option NodeWithOrigin)) (p : String),
      (∀ nd ∈ ns, dictGet combined nd.name = none) →
      (ns.map Node.name).Nodup →
      showFoldNodes combined p ns =
        (ns.foldl (fun c nd => dictInsert c nd.name (some ⟨[p], nd⟩)) combined, none) := by
  intro ns
  induction ns with
  | nil =>
    intro combined p _ _
    rw [showFoldNodes]
    rfl
  | cons nd rest ih =>
    intro combined p hfresh hnodup
    have hg : dictGet combined nd.name = none := hfresh nd (List.mem_cons_self _ _)
    rw [showFoldNodes, showStep, hg]
    refine ih (dictInsert combined nd.name (some ⟨[p], nd⟩)) p ?_
      (List.nodup_cons.mp hnodup).2
    intro nd' hmem
    have hne : nd'.name ≠ nd.name := by
      intro he
      exact (List.nodup_cons.mp hnodup).1
        (he ▸ List.mem_map.mpr ⟨nd', hmem, rfl⟩)
    rw [dictGet_insert, if_neg hne]
    exact hfresh nd' (List.mem_cons_of_mem _ hmem)

/-- C2: `merge([a, a])` — the same file listed twice — yields exactly the
outcome of parsing `a` alone: the dict comprehension
`{path: parse_nodl(path) for path in paths}` collapses the duplicate path
to a single entry (first conjunct), so the whole combination phase
coincides with that of `[a]` (second conjunct) and, when the file's
component names are distinct, succeeds with every parsed component seeded
once and no conflict raised (third conjunct).  Equivalently, at the node
level, merging a component with a structurally equal copy of itself leaves
all four entry mappings unchanged and raises nothing (fourth conjunct). -/
theorem c2_merge_idempotent (parse : String → List Node) (a : String) (nd : Node)
    (hwf : nd.WF) (hnames : ((parse a).map Node.name).Nodup) :
    buildNodeLists parse [a, a] = buildNodeLists parse [a] ∧
    showNodlParsed parse [a, a] = showNodlParsed parse [a] ∧
    showNodlParsed parse [a, a] =
      .success ((parse a).foldl (fun c n => dictInsert c n.name (some ⟨[a], n⟩)) []) ∧
    Node.iaddST nd nd = ((nd, nd), none) := by
  obtain ⟨hw1, hw2, hw3, hw4⟩ := hwf
  have hdict : buildNodeLists parse [a, a] = buildNodeLists parse [a] := by
    show dictInsert (dictInsert [] a (parse a)) a (parse a) = dictInsert [] a (parse a)
    exact dictInsert_self _ a (parse a) (by rw [dictInsert, dictGet, if_pos rfl])
  have hsame : showNodlParsed parse [a, a] = showNodlParsed parse [a] := by
    rw [showNodlParsed, showNodlParsed, hdict]
  have hseed := showFoldNodes_seed (parse a) [] a (fun nd _ => rfl) hnames
  have hsucc : showNodlParsed parse [a] =
      .success ((parse a).foldl (fun c n => dictInsert c n.name (some ⟨[a], n⟩)) []) := by
    show showFold [] [(a, parse a)] = _
    rw [showFold, hseed]
    rfl
  refine ⟨hdict, hsame, hsame.trans hsucc, ?_⟩
  have h1 := mergeDict_agree nd.actions nd.actions fun m v hmem => dictGet_of_mem_wf hw1 hmem
  have h2 := mergeDict_agree nd.parameters nd.parameters fun m v hmem =>
    dictGet_of_mem_wf hw2 hmem
  have h3 := mergeDict_agree nd.services nd.services fun m v hmem => dictGet_of_mem_wf hw3 hmem
  have h4 := mergeDict_agree nd.topics nd.topics fun m v hmem => dictGet_of_mem_wf hw4 hmem
  rw [Node.iaddST, h1, h2, h3, h4]

/-- C2 (witness): the idempotence theorem at a concrete single-component
file parsed to `X` with one action. -/
theorem c2_merge_idempotent_witness :
    ((Node.ofLists "X" [Action "foo" "T"] [] [] []).WF ∧
      (((fun _ : String => [Node.ofLists "X" [Action "foo" "T"] [] [] []])
        "a.nodl.xml").map Node.name).Nodup) ∧
    (buildNodeLists (fun _ => [Node.ofLists "X" [Action "foo" "T"] [] [] []])
        ["a.nodl.xml", "a.nodl.xml"] =
      buildNodeLists (fun _ => [Node.ofLists "X" [Action "foo" "T"] [] [] []])
        ["a.nodl.xml"] ∧
    showNodlParsed (fun _ => [Node.ofLists "X" [Action "foo" "T"] [] [] []])
        ["a.nodl.xml", "a.nodl.xml"] =
      showNodlParsed (fun _ => [Node.ofLists "X" [Action "foo" "T"] [] [] []])
        ["a.nodl.xml"] ∧
    showNodlParsed (fun _ => [Node.ofLists "X" [Action "foo" "T"] [] [] []])
        ["a.nodl.xml", "a.nodl.xml"] =
      .success ([Node.ofLists "X" [Action "foo" "T"] [] [] []].foldl
        (fun c n => dictInsert c n.name (some ⟨["a.nodl.xml"], n⟩)) []) ∧
    Node.iaddST (Node.ofLists "X" [Action "foo" "T"] [] [] [])
        (Node.ofLists "X" [Action "foo" "T"] [] [] []) =
      ((Node.ofLists "X" [Action "foo" "T"] [] [] [],
        Node.ofLists "X" [Action "foo" "T"] [] [] []), none)) := by
  refine ⟨⟨by decide, by decide⟩, ?_⟩
  exact c2_merge_idempotent (fun _ => [Node.ofLists "X" [Action "foo" "T"] [] [] []])
    "a.nodl.xml" (Node.ofLists "X" [Action "foo" "T"] [] [] []) (by decide) (by decide)

/-- C4: the version dispatch of `parse_nodl_file` — an absent `version`
attribute raises the missing-version `InvalidNoDLException` naming the
interface element; `version="2"` (exceeding `NODL_MAX_SUPPORTED_VERSION = 1`)
raises the distinct `UnsupportedInterfaceException` carrying the found
version and the maximum, and version-1 extraction is never attempted (no
`Interface_v1` is ever produced). -/
theorem c4_version_dispatch (i1 i2 : Element)
    (h1 : dictGet i1.attrs "version" = none)
    (h2 : dictGet i2.attrs "version" = some "2") :
    parse_nodl_file i1 =
      .error (.invalidNoDL "Missing version attribute in interface." (some i1)) ∧
    parse_nodl_file i2 =
      .error (.unsupportedInterface i2 "2" NODL_MAX_SUPPORTED_VERSION) ∧
    (∀ r, parse_nodl_file i2 ≠ .ok r) ∧
    ∀ msg el el2 v mx, PyError.invalidNoDL msg el ≠ PyError.unsupportedInterface el2 v mx := by
  refine ⟨?_, ?_, ?_, ?_⟩
  · rw [parse_nodl_file, h1]
  · rw [parse_nodl_file, h2]
    exact rfl
  · intro r hcon
    rw [parse_nodl_file, h2] at hcon
    exact Except.noConfusion hcon
  · intro msg el el2 v mx hcon
    exact PyError.noConfusion hcon

/-- C4 (witness): the dispatch theorem at a concrete version-less interface
element and a concrete `version="2"` element. -/
theorem c4_version_dispatch_witness :
    (dictGet (Element.mk "f.nodl.xml" 1 []).attrs "version" = none ∧
      dictGet (Element.mk "g.nodl.xml" 1 [("version", "2")]).attrs "version" = some "2") ∧
    (parse_nodl_file ⟨"f.nodl.xml", 1, []⟩ =
      .error (.invalidNoDL "Missing version attribute in interface."
        (some ⟨"f.nodl.xml", 1, []⟩)) ∧
    parse_nodl_file ⟨"g.nodl.xml", 1, [("version", "2")]⟩ =
      .error (.unsupportedInterface ⟨"g.nodl.xml", 1, [("version", "2")]⟩ "2"
        NODL_MAX_SUPPORTED_VERSION) ∧
    (∀ r, parse_nodl_file ⟨"g.nodl.xml", 1, [("version", "2")]⟩ ≠ .ok r) ∧
    ∀ msg el el2 v mx, PyError.invalidNoDL msg el ≠ PyError.unsupportedInterface el2 v mx) := by
  refine ⟨⟨by decide, by decide⟩, ?_⟩
  exact c4_version_dispatch ⟨"f.nodl.xml", 1, []⟩ ⟨"g.nodl.xml", 1, [("version", "2")]⟩
    (by decide) (by decide)

/-- C5 (bug evaluation): the claim "omitting an optional role attribute
parses with the flag false" is what the spec and the `Action` defaults
intend, but the code crashes instead: `attribs.get("server", False)` hands
the *boolean* `False` to `str_to_bool`, whose `.lower()` call raises an
uncaught `AttributeError` (first conjunct, at a concrete action element
lacking both role attributes).  When the role attributes are present the
entry is built with each flag set by `str_to_bool` (second conjunct), and
`str_to_bool` is true exactly for case-insensitive `"true"` or `"1"`
(third conjunct). -/
theorem c5_role_default_crash :
    parse_action ⟨"pkg.nodl.xml", 4, [("name", "foo"), ("type", "bar")]⟩ =
      .error .attributeError ∧
    (∀ base line n t sv cl,
      parse_action ⟨base, line, [("name", n), ("type", t), ("server", sv), ("client", cl)]⟩ =
        .ok (Action n t (str_to_bool sv) (str_to_bool cl),
          if !(str_to_bool sv || str_to_bool cl)
          then [Warning.noNodeInterface (base ++ ":" ++ toString line) n] else [])) ∧
    ∀ s, str_to_bool s = true ↔ (pyLower s = "true" ∨ pyLower s = "1") := by
  refine ⟨rfl, ?_, ?_⟩
  · intro base line n t sv cl
    rfl
  · intro s
    rw [str_to_bool]
    simp [List.contains]

/-- C6 (counterexample): a topic element with neither `publisher="true"`
nor `subscriber="true"` — here both attributes absent — does *not* parse
successfully with a warning; the `str_to_bool(attribs.get("publisher",
False))` pattern raises an uncaught `AttributeError` instead. -/
theorem c6_counterexample :
    parse_topic ⟨"pkg.nodl.xml", 7, [("name", "t"), ("type", "T")]⟩ =
      .error .attributeError := rfl

/-- C6 (amended): for a topic element whose role attributes are *present*
but neither affirmative (not case-insensitively `"true"`/`"1"`), parsing
succeeds — it returns the `Topic` entry with both flags false — and emits
exactly one ambiguous-role warning referencing the topic's name; the
warning never aborts parsing. -/
theorem c6_amended (base : String) (line : Nat) (n t pv sv : String)
    (hp : str_to_bool pv = false) (hs : str_to_bool sv = false) :
    parse_topic ⟨base, line,
        [("name", n), ("type", t), ("publisher", pv), ("subscriber", sv)]⟩ =
      .ok (Topic n t false false,
        [Warning.noNodeInterface (base ++ ":" ++ toString line) n]) := by
  rw [show parse_topic ⟨base, line,
      [("name", n), ("type", t), ("publisher", pv), ("subscriber", sv)]⟩ =
    .ok (Topic n t (str_to_bool pv) (str_to_bool sv),
      if !(str_to_bool pv || str_to_bool sv)
      then [Warning.noNodeInterface (base ++ ":" ++ toString line) n] else []) from rfl,
    hp, hs]
  rfl

/-- C6 (witness): the amended theorem at a concrete topic element with
`publisher="false"`, `subscriber="no"`. -/
theorem c6_amended_witness :
    (str_to_bool "false" = false ∧ str_to_bool "no" = false) ∧
    parse_topic ⟨"pkg.nodl.xml", 9,
        [("name", "scan"), ("type", "sensor_msgs"), ("publisher", "false"),
          ("subscriber", "no")]⟩ =
      .ok (Topic "scan" "sensor_msgs" false false,
        [Warning.noNodeInterface ("pkg.nodl.xml" ++ ":" ++ toString 9) "scan"]) := by
  refine ⟨⟨by decide, by decide⟩, ?_⟩
  exact c6_amended "pkg.nodl.xml" 9 "scan" "sensor_msgs" "false" "no" (by decide) (by decide)

/-- C8 (counterexample): `validate_nodl_file` does not return `False` for
every malformed file — its `except` clause catches only
`InvalidNoDLDocumentError`, so the `UnsupportedInterfaceError` produced by
`_parse_interface` for a `version="2"` document (third conjunct shows the
parser producing exactly that error, with the version-1 extractor
instantiated trivially since that branch is not taken) propagates out of
the call instead of being reported (first two conjuncts). -/
theorem c8_counterexample :
    (validate_nodl_file "pkg.nodl.xml"
        (.error (.unsupportedInterface (some "2") 1))).1 ≠ .ok false ∧
    validate_nodl_file "pkg.nodl.xml" (.error (.unsupportedInterface (some "2") 1)) =
      (.error (.unsupportedInterface (some "2") 1), []) ∧
    _parse_interface (fun _ => []) ⟨"pkg.nodl.xml", 1, [("version", "2")]⟩ =
      .error (.unsupportedInterface (some "2") 1) := by
  refine ⟨?_, rfl, ?_⟩
  · intro hcon
    exact Except.noConfusion hcon
  · rfl

/-- C8 (amended): `validate_nodl_file` returns `True` on a successful
parse; returns `False` and prints the structured diagnostics only for a
schema-validation failure (`InvalidNoDLDocumentError`); any other
parse-time failure — unsupported or missing version, invalid element /
missing required attribute — propagates uncaught out of the call. -/
theorem c8_amended (path : String) (ns : List Node) (msg m2 : String) (v : Option String)
    (mx : Nat) :
    validate_nodl_file path (.ok ns) = (.ok true, []) ∧
    validate_nodl_file path (.error (.invalidNoDLDocument msg)) =
      (.ok false, ["Validation of " ++ path ++ " failed", msg]) ∧
    validate_nodl_file path (.error (.unsupportedInterface v mx)) =
      (.error (.unsupportedInterface v mx), []) ∧
    validate_nodl_file path (.error (.invalidElement m2)) =
      (.error (.invalidElement m2), []) :=
  ⟨rfl, rfl, rfl, rfl⟩

end NoDL
